import Mathlib

/-!
Verification of the lookip control-socket service
(src/libcharon/plugins/lookip/lookip_socket.c).

The code is embedded shallowly: each C function becomes a pure Lean
function that returns the sequence of observable actions it performs
(lock, list removal, descriptor close, free, log, send) together with its
return value; syscall results (send, recv, bind, ...) are oracle
parameters. Registry state is a list of client entries plus the set of
open descriptors; an action list is applied to a state to obtain the
successor state.
-/

namespace Lookip

/-- Modelled from the spec: request type values of the wire protocol
(Lookup=0, Dump=1, RegisterUp=2, RegisterDown=3, End=4); the message
header lookip_msg.h is not among the sources. -/
def LOOKIP_LOOKUP : Int := 0

/-- Modelled from the spec: the Dump request type value. -/
def LOOKIP_DUMP : Int := 1

/-- Modelled from the spec: the RegisterUp request type value. -/
def LOOKIP_REGISTER_UP : Int := 2

/-- Modelled from the spec: the RegisterDown request type value. -/
def LOOKIP_REGISTER_DOWN : Int := 3

/-- Modelled from the spec: the End request type value. -/
def LOOKIP_END : Int := 4

/-- Kind of a client entry, the value stored in the type field of entry_t:
LOOKIP_ENTRY for transient lookup targets, LOOKIP_NOTIFY_UP and
LOOKIP_NOTIFY_DOWN for subscriptions. -/
inductive EntryKind
| lookupResult
| notifyUp
| notifyDown
deriving DecidableEq, Repr

/-- Modelled from the spec: capacity of the vip field of a response
(fixed-size char buffer; lookip_msg.h is not among the sources). -/
def VIP_CAP : Nat := 40

/-- Modelled from the spec: capacity of the ip field of a response. -/
def IP_CAP : Nat := 40

/-- Modelled from the spec: capacity of the id field of a response. -/
def ID_CAP : Nat := 256

/-- Modelled from the spec: capacity of the name field of a response. -/
def NAME_CAP : Nat := 40

/-- Modelled from the spec: capacity of the vip field of a request. -/
def REQ_VIP_CAP : Nat := 40

/-- Modelled from the spec: total byte size of a request record
(int32 type plus the vip buffer). -/
def REQ_SIZE : Int := 44

/-- Modelled from the spec: total byte size of a response record
(int32 type plus the four string buffers). -/
def RESP_SIZE : Int := 380

/-- Bytes written by snprintf into a fixed buffer of the given capacity:
the source truncated to capacity minus one byte, plus a terminating NUL.
Bytes are Nat, 0 is NUL. -/
def snprintfBuf (cap : Nat) (s : List Nat) : List Nat :=
  s.take (cap - 1) ++ [0]

/-- A response record (lookip_response_t): a type and four fixed-capacity
string fields. -/
structure Response where
  rtype : EntryKind
  vip : List Nat
  ip : List Nat
  idf : List Nat
  name : List Nat
deriving DecidableEq, Repr

/-- The response built by listener_cb: the entry kind as type, each string
formatted by snprintf into its fixed-capacity field. -/
def mkResponse (k : EntryKind) (vipS ipS idS nameS : List Nat) : Response :=
  { rtype := k
    vip := snprintfBuf VIP_CAP vipS
    ip := snprintfBuf IP_CAP ipS
    idf := snprintfBuf ID_CAP idS
    name := snprintfBuf NAME_CAP nameS }

/-- A request record (lookip_request_t): an int32 type and a fixed-capacity
address-string buffer. -/
structure Request where
  rtype : Int
  vip : List Nat
deriving DecidableEq, Repr

/-- The null-termination the query function performs on a request before
parsing: req.vip[sizeof(req.vip) - 1] = 0. -/
def terminateBuf (v : List Nat) : List Nat :=
  v.set (REQ_VIP_CAP - 1) 0

/-- A client entry (entry_t): a descriptor, a message-type kind, and
whether the back pointer to the socket is set (subscriptions only).
eid models the identity of the allocated entry (its address). -/
structure SEntry where
  eid : Nat
  fd : Nat
  kind : EntryKind
  hasThis : Bool
deriving DecidableEq, Repr

/-- Log messages the embedded functions can emit. -/
inductive LogMsg
| sendFailed
| recvFailed
| unknownCmd
deriving DecidableEq, Repr

/-- Observable actions of the notification path. -/
inductive Act
| lock
| unlock
| sendCall (fd : Nat) (resp : Response)
| removeClient (eid : Nat)
| closeFd (fd : Nat)
| freeEntry (eid : Nat)
| log (m : LogMsg)
| lookupCall (target : Option (List Nat))
deriving DecidableEq, Repr

/-- Embedding of entry_destroy: close the descriptor, free the entry. -/
def entry_destroy (e : SEntry) : List Act :=
  [Act.closeFd e.fd, Act.freeEntry e.eid]

/-- Result of one invocation of listener_cb: the boolean it returns to the
lease directory (keep calling / stop) and the actions it performed. -/
structure CbOut where
  keep : Bool
  acts : List Act
deriving DecidableEq, Repr

/-- Embedding of listener_cb. up is the event direction, the four lists are
the formatted virtual address, peer address, peer identity and
configuration name, sendRes is the value returned by send(2). -/
def listener_cb (entry : SEntry) (up : Bool) (vipS ipS idS nameS : List Nat)
    (sendRes : Int) : CbOut :=
  if up = true ∧ entry.kind = EntryKind.notifyDown then
    { keep := true, acts := [] }
  else if up = false ∧ entry.kind = EntryKind.notifyUp then
    { keep := true, acts := [] }
  else
    let resp := mkResponse entry.kind vipS ipS idS nameS
    if sendRes = RESP_SIZE then
      { keep := true, acts := [Act.sendCall entry.fd resp] }
    else
      let logA : List Act := if sendRes = 0 then [] else [Act.log LogMsg.sendFailed]
      let cleanup : List Act :=
        if entry.hasThis then
          [Act.lock, Act.removeClient entry.eid, Act.unlock] ++ entry_destroy entry
        else []
      { keep := false, acts := Act.sendCall entry.fd resp :: (logA ++ cleanup) }

/-- State of the client registry: the list of registered entries, the set
of open descriptors, and the next entry identity to allocate. -/
structure RegState where
  clients : List SEntry
  openFds : List Nat
  nextId : Nat
deriving DecidableEq, Repr

/-- Effect of one action on the registry state: removeClient removes the
entry from the list, closeFd closes the descriptor; the rest do not touch
this state. -/
def applyAct (s : RegState) : Act → RegState
| Act.removeClient i => { s with clients := s.clients.filter (fun e => e.eid != i) }
| Act.closeFd fd => { s with openFds := s.openFds.filter (fun f => f != fd) }
| _ => s

/-- Effect of an action sequence on the registry state. -/
def applyActs (s : RegState) (l : List Act) : RegState :=
  l.foldl applyAct s

/-- One recv(2) outcome on a connection: a full-size request record, or a
byte count different from the request size (0 models a clean disconnect,
a negative value an error). -/
inductive Recv
| ok (req : Request)
| short (len : Int)
deriving DecidableEq, Repr

/-- Observable actions of the per-connection request loop. -/
inductive SessAct
| queryCall (vip : Option (List Nat))
| subscribeCall (kind : EntryKind)
| logTransport
| logUnknown
deriving DecidableEq, Repr

/-- Why the request loop stopped. -/
inductive EndReason
| endCmd
| unknownCmd (t : Int)
| shortRead (len : Int)
| inputExhausted
deriving DecidableEq, Repr

/-- Result of the request loop of one accepted connection. -/
structure Session where
  consumed : Nat
  subscribed : Bool
  acts : List SessAct
  reason : EndReason
deriving DecidableEq, Repr

/-- Embedding of the while loop of receive: reads requests until a short
read, an End request or an unknown request type; Lookup and Dump dispatch
to query, RegisterUp and RegisterDown subscribe and set the subscribed
flag. -/
def connLoop : List Recv → Bool → Session
| [], sub =>
    { consumed := 0, subscribed := sub, acts := [], reason := EndReason.inputExhausted }
| Recv.ok req :: rest, sub =>
    if req.rtype = LOOKIP_LOOKUP then
      let s := connLoop rest sub
      { s with consumed := s.consumed + 1,
               acts := SessAct.queryCall (some req.vip) :: s.acts }
    else if req.rtype = LOOKIP_DUMP then
      let s := connLoop rest sub
      { s with consumed := s.consumed + 1,
               acts := SessAct.queryCall none :: s.acts }
    else if req.rtype = LOOKIP_REGISTER_UP then
      let s := connLoop rest true
      { s with consumed := s.consumed + 1,
               acts := SessAct.subscribeCall EntryKind.notifyUp :: s.acts }
    else if req.rtype = LOOKIP_REGISTER_DOWN then
      let s := connLoop rest true
      { s with consumed := s.consumed + 1,
               acts := SessAct.subscribeCall EntryKind.notifyDown :: s.acts }
    else if req.rtype = LOOKIP_END then
      { consumed := 1, subscribed := sub, acts := [], reason := EndReason.endCmd }
    else
      { consumed := 1, subscribed := sub, acts := [SessAct.logUnknown],
        reason := EndReason.unknownCmd req.rtype }
| Recv.short len :: _, sub =>
    { consumed := 1, subscribed := sub,
      acts := if len = 0 then [] else [SessAct.logTransport],
      reason := EndReason.shortRead len }

/-- Result of one receive invocation on an accepted connection: the
session and whether the handler closed the descriptor afterwards. -/
structure ConnResult where
  session : Session
  fdClosed : Bool
deriving DecidableEq, Repr

/-- Embedding of the per-connection part of receive: run the request loop
with the subscribed flag initially FALSE and close the descriptor exactly
when the flag is still FALSE at the end. -/
def handleConn (reads : List Recv) : ConnResult :=
  let s := connLoop reads false
  { session := s, fdClosed := !s.subscribed }

/-- A read that is a full-size register request. -/
def isReg : Recv → Bool
| Recv.ok req =>
    req.rtype == LOOKIP_REGISTER_UP || req.rtype == LOOKIP_REGISTER_DOWN
| Recv.short _ => false

/-- A read that makes the request loop continue to the next request. -/
def contin : Recv → Bool
| Recv.ok req =>
    req.rtype == LOOKIP_LOOKUP || req.rtype == LOOKIP_DUMP ||
    req.rtype == LOOKIP_REGISTER_UP || req.rtype == LOOKIP_REGISTER_DOWN
| Recv.short _ => false

/-- One lease of the lease directory: virtual address, peer address, peer
identity and configuration name, each as its formatted string. -/
structure Lease where
  vip : List Nat
  other : List Nat
  peerId : List Nat
  confName : List Nat
deriving DecidableEq, Repr

/-- Whether a lease matches the lookup target (no target matches all). -/
def matchesTarget (target : Option (List Nat)) (l : Lease) : Bool :=
  match target with
  | none => true
  | some v => v == l.vip

/-- Modelled from the spec: the lookup entry point of the Lease Directory
(lookip_listener, not among the sources): it invokes the callback once per
matching lease with a synthetic Up event and stops the iteration when the
callback returns FALSE. sendRes gives the send(2) result of the i-th
callback invocation. -/
def dirLookup (entry : SEntry) (target : Option (List Nat)) (sendRes : Nat → Int) :
    List Lease → Nat → List Act
| [], _ => []
| l :: rest, i =>
    if matchesTarget target l then
      let out := listener_cb entry true l.vip l.other l.peerId l.confName (sendRes i)
      if out.keep then out.acts ++ dirLookup entry target sendRes rest (i + 1)
      else out.acts
    else dirLookup entry target sendRes rest i

/-- Embedding of query: build a transient entry for the connection
descriptor; for a lookup request null-terminate the address string and
parse it (parse models host_create_from_string), invoking the directory
lookup only when parsing succeeds; for a dump invoke the directory lookup
with no target. -/
def query (parse : List Nat → Option (List Nat)) (leases : List Lease)
    (sendRes : Nat → Int) (fd : Nat) (req : Option Request) : List Act :=
  match req with
  | some r =>
      match parse (terminateBuf r.vip) with
      | some vip =>
          Act.lookupCall (some vip) ::
            dirLookup ⟨0, fd, EntryKind.lookupResult, false⟩ (some vip) sendRes leases 0
      | none => []
  | none =>
      Act.lookupCall none ::
        dirLookup ⟨0, fd, EntryKind.lookupResult, false⟩ none sendRes leases 0

/-- Number of leases of a list matching the lookup target, which is also
the number of callback invocations a completed iteration over the list
performs. -/
def mcount (target : Option (List Nat)) (ls : List Lease) : Nat :=
  (ls.filter (matchesTarget target)).length

/-- Embedding of subscribe: allocate a persistent entry for the descriptor
with the given kind and insert it into the registry under the lock. -/
def subscribe (s : RegState) (fd : Nat) (kind : EntryKind) : RegState :=
  { s with clients := s.clients ++ [⟨s.nextId, fd, kind, true⟩],
           nextId := s.nextId + 1 }

/-- Embedding of destroy for the registry state: every remaining entry is
destroyed, closing its descriptor, and the list is emptied. -/
def destroyAll (s : RegState) : RegState :=
  { s with clients := [],
           openFds := s.openFds.filter (fun f => !(s.clients.any (fun e => e.fd == f))) }

/-- Label of one atomic operation of the service on the registry state. -/
inductive Lab
| accept (fd : Nat)
| subscribeOp (fd : Nat) (kind : EntryKind)
| notifyOp (e : SEntry) (up : Bool) (vipS ipS idS nameS : List Nat) (sendRes : Int)
| sessionClose (fd : Nat)
| destroyOp

/-- Labelled transition relation of the service on the registry state, as
the code performs it: accept opens a fresh descriptor; subscribe inserts a
persistent entry for an open descriptor; a lease event applies the actions
of listener_cb for a registered entry; the connection handler closes a
descriptor owned by no subscription; destroy tears everything down. -/
inductive Step : RegState → Lab → RegState → Prop
| accept (s : RegState) (fd : Nat) (h : fd ∉ s.openFds) :
    Step s (Lab.accept fd) { s with openFds := fd :: s.openFds }
| subscribeOp (s : RegState) (fd : Nat) (kind : EntryKind) (h : fd ∈ s.openFds)
    (hk : kind = EntryKind.notifyUp ∨ kind = EntryKind.notifyDown) :
    Step s (Lab.subscribeOp fd kind) (subscribe s fd kind)
| notifyOp (s : RegState) (e : SEntry) (up : Bool) (vipS ipS idS nameS : List Nat)
    (sendRes : Int) (h : e ∈ s.clients) :
    Step s (Lab.notifyOp e up vipS ipS idS nameS sendRes)
      (applyActs s (listener_cb e up vipS ipS idS nameS sendRes).acts)
| sessionClose (s : RegState) (fd : Nat) (h : fd ∈ s.openFds)
    (hn : ∀ e ∈ s.clients, e.fd ≠ fd) :
    Step s (Lab.sessionClose fd)
      { s with openFds := s.openFds.filter (fun f => f != fd) }
| destroyOp (s : RegState) : Step s Lab.destroyOp (destroyAll s)

/-- States reachable by the service from the initial empty state. -/
inductive Reach : RegState → Prop
| init : Reach ⟨[], [], 0⟩
| step (s s2 : RegState) (lab : Lab) : Reach s → Step s lab s2 → Reach s2

/-- Reachability restricted to runs in which every subscribe uses a
descriptor with no existing registry entry (each connection registers at
most once): the amended hypothesis of C5. -/
inductive ReachD : RegState → Prop
| init : ReachD ⟨[], [], 0⟩
| step (s s2 : RegState) (lab : Lab) : ReachD s → Step s lab s2 →
    (∀ fd kind, lab = Lab.subscribeOp fd kind → ∀ e ∈ s.clients, e.fd ≠ fd) →
    ReachD s2

/-- Observable actions of open_socket. -/
inductive SysAct
| socketCreate
| unlinkPath
| umaskRestrict
| bindCall
| umaskRestore
| chownCall
| listenCall
| closeListenSock
| logErr
deriving DecidableEq, Repr

/-- Result of open_socket: its action trace and its boolean return. -/
structure OpenResult where
  acts : List SysAct
  ok : Bool
deriving DecidableEq, Repr

/-- Embedding of open_socket, with one oracle boolean per syscall outcome:
create the socket, unlink the stale path, restrict the umask, bind (on
failure: log, close, return FALSE), restore the umask, chown the path (a
failure only logs), listen (on failure: log, close, unlink, return
FALSE). -/
def open_socket (socketOk bindOk chownOk listenOk : Bool) : OpenResult :=
  if socketOk = false then
    { acts := [SysAct.socketCreate, SysAct.logErr], ok := false }
  else if bindOk = false then
    { acts := [SysAct.socketCreate, SysAct.unlinkPath, SysAct.umaskRestrict,
               SysAct.bindCall, SysAct.logErr, SysAct.closeListenSock],
      ok := false }
  else
    let chownActs : List SysAct :=
      if chownOk then [SysAct.chownCall] else [SysAct.chownCall, SysAct.logErr]
    let base : List SysAct :=
      [SysAct.socketCreate, SysAct.unlinkPath, SysAct.umaskRestrict,
       SysAct.bindCall, SysAct.umaskRestore] ++ chownActs ++ [SysAct.listenCall]
    if listenOk = false then
      { acts := base ++ [SysAct.logErr, SysAct.closeListenSock, SysAct.unlinkPath],
        ok := false }
    else
      { acts := base, ok := true }

/-- C1: a NotifyUp entry on a Down event, or a NotifyDown entry on an Up
event, is suppressed by the filter: no action at all (in particular no
write) and the callback returns TRUE (keep the subscription); an entry of
kind LookupResult is never suppressed: the write to its descriptor is
always attempted, whatever the event direction. -/
theorem C1_filter (entry : SEntry) (up : Bool) (vipS ipS idS nameS : List Nat)
    (sendRes : Int) :
    ((entry.kind = EntryKind.notifyUp ∧ up = false) ∨
       (entry.kind = EntryKind.notifyDown ∧ up = true) →
      (listener_cb entry up vipS ipS idS nameS sendRes).acts = [] ∧
      (listener_cb entry up vipS ipS idS nameS sendRes).keep = true) ∧
    (entry.kind = EntryKind.lookupResult →
      Act.sendCall entry.fd (mkResponse EntryKind.lookupResult vipS ipS idS nameS) ∈
        (listener_cb entry up vipS ipS idS nameS sendRes).acts) := by
  constructor
  · rintro (⟨hk, hu⟩ | ⟨hk, hu⟩) <;> subst hu <;>
      simp [listener_cb, hk]
  · intro hk
    unfold listener_cb
    rw [if_neg (by simp [hk]), if_neg (by simp [hk])]
    by_cases hs : sendRes = RESP_SIZE <;> simp [hs, hk]

/-- Witness for C1 at concrete inputs. -/
theorem C1_filter_witness :
    (((⟨1, 5, EntryKind.notifyUp, true⟩ : SEntry).kind = EntryKind.notifyUp ∧
        false = false) ∨
      ((⟨1, 5, EntryKind.notifyUp, true⟩ : SEntry).kind = EntryKind.notifyDown ∧
        false = true)) ∧
    ((listener_cb ⟨1, 5, EntryKind.notifyUp, true⟩ false [1] [2] [3] [4] 380).acts = [] ∧
     (listener_cb ⟨1, 5, EntryKind.notifyUp, true⟩ false [1] [2] [3] [4] 380).keep = true) := by
  refine ⟨Or.inl ⟨rfl, rfl⟩, ?_⟩
  exact (C1_filter ⟨1, 5, EntryKind.notifyUp, true⟩ false [1] [2] [3] [4] 380).1
    (Or.inl ⟨rfl, rfl⟩)

/-- C2: for an unfiltered delivery, a write returning exactly the response
size keeps the subscription and changes no state; any other write result
makes the callback return FALSE (stop), and for a persistent entry the
removal from the registry happens under the lock, only then the descriptor
is closed and the entry freed, each exactly once. -/
theorem C2_write_result (entry : SEntry) (up : Bool) (vipS ipS idS nameS : List Nat)
    (sendRes : Int) (st : RegState)
    (hf : ¬(up = true ∧ entry.kind = EntryKind.notifyDown))
    (hf2 : ¬(up = false ∧ entry.kind = EntryKind.notifyUp)) :
    (sendRes = RESP_SIZE →
      (listener_cb entry up vipS ipS idS nameS sendRes).keep = true ∧
      applyActs st (listener_cb entry up vipS ipS idS nameS sendRes).acts = st) ∧
    (sendRes ≠ RESP_SIZE →
      (listener_cb entry up vipS ipS idS nameS sendRes).keep = false ∧
      (entry.hasThis = true →
        (∃ pre, (listener_cb entry up vipS ipS idS nameS sendRes).acts =
            pre ++ [Act.lock, Act.removeClient entry.eid, Act.unlock,
                    Act.closeFd entry.fd, Act.freeEntry entry.eid] ∧
            Act.removeClient entry.eid ∉ pre ∧ Act.closeFd entry.fd ∉ pre ∧
            Act.freeEntry entry.eid ∉ pre) ∧
        (applyActs st (listener_cb entry up vipS ipS idS nameS sendRes).acts).clients =
          st.clients.filter (fun e => e.eid != entry.eid) ∧
        (applyActs st (listener_cb entry up vipS ipS idS nameS sendRes).acts).openFds =
          st.openFds.filter (fun f => f != entry.fd))) := by
  unfold listener_cb
  rw [if_neg hf, if_neg hf2]
  constructor
  · intro hs
    simp [hs, applyActs, applyAct]
  · intro hs
    rw [if_neg hs]
    refine ⟨rfl, ?_⟩
    intro hp
    by_cases h0 : sendRes = 0
    · simp [h0, hp, entry_destroy, applyActs, applyAct]
      exact ⟨[Act.sendCall entry.fd (mkResponse entry.kind vipS ipS idS nameS)],
        by simp, by simp, by simp, by simp⟩
    · simp [h0, hp, entry_destroy, applyActs, applyAct]
      exact ⟨[Act.sendCall entry.fd (mkResponse entry.kind vipS ipS idS nameS),
        Act.log LogMsg.sendFailed], by simp, by simp, by simp, by simp⟩

/-- Witness for C2 at concrete inputs: a persistent NotifyUp entry, an Up
event, send returning 0. -/
theorem C2_write_result_witness :
    (listener_cb ⟨2, 7, EntryKind.notifyUp, true⟩ true [1] [2] [3] [4] 0).keep = false :=
  ((C2_write_result ⟨2, 7, EntryKind.notifyUp, true⟩ true [1] [2] [3] [4] 0
      ⟨[], [], 0⟩ (by decide) (by decide)).2 (by decide)).1

/-- The subscribed flag at the end of the loop is true exactly when it was
initially true or a register request is among the consumed reads. -/
theorem connLoop_subscribed (reads : List Recv) (sub : Bool) :
    (connLoop reads sub).subscribed = true ↔
      (sub = true ∨ ∃ x ∈ reads.take (connLoop reads sub).consumed, isReg x = true) := by
  induction reads generalizing sub with
  | nil => simp [connLoop]
  | cons r rest ih =>
    cases r with
    | ok req =>
      by_cases h1 : req.rtype = LOOKIP_LOOKUP
      · simp [connLoop, h1, isReg, ih sub, LOOKIP_LOOKUP, LOOKIP_DUMP,
          LOOKIP_REGISTER_UP, LOOKIP_REGISTER_DOWN, LOOKIP_END]
      by_cases h2 : req.rtype = LOOKIP_DUMP
      · simp [connLoop, h1, h2, isReg, ih sub, LOOKIP_LOOKUP, LOOKIP_DUMP,
          LOOKIP_REGISTER_UP, LOOKIP_REGISTER_DOWN, LOOKIP_END]
      by_cases h3 : req.rtype = LOOKIP_REGISTER_UP
      · simp [connLoop, h1, h2, h3, isReg, ih true, LOOKIP_LOOKUP, LOOKIP_DUMP,
          LOOKIP_REGISTER_UP, LOOKIP_REGISTER_DOWN, LOOKIP_END]
      by_cases h4 : req.rtype = LOOKIP_REGISTER_DOWN
      · simp [connLoop, h1, h2, h3, h4, isReg, ih true, LOOKIP_LOOKUP, LOOKIP_DUMP,
          LOOKIP_REGISTER_UP, LOOKIP_REGISTER_DOWN, LOOKIP_END]
      by_cases h5 : req.rtype = LOOKIP_END
      · simp [connLoop, h1, h2, h3, h4, h5, isReg, LOOKIP_LOOKUP, LOOKIP_DUMP,
          LOOKIP_REGISTER_UP, LOOKIP_REGISTER_DOWN, LOOKIP_END]
      · simp [connLoop, h1, h2, h3, h4, h5, isReg]
    | short len =>
      simp [connLoop, isReg]

/-- C4: on loop termination the handler closes the descriptor of the
connection exactly when no RegisterUp or RegisterDown request was
processed on it; entry_destroy, run when a persistent entry is removed,
is what closes the descriptor afterwards. -/
theorem C4_close_iff (reads : List Recv) :
    ((handleConn reads).fdClosed = true ↔
      ¬ ∃ x ∈ reads.take (handleConn reads).session.consumed, isReg x = true) ∧
    (∀ e : SEntry, Act.closeFd e.fd ∈ entry_destroy e) := by
  constructor
  · have h := connLoop_subscribed reads false
    simp only [Bool.false_eq_true, false_or] at h
    simp only [handleConn]
    rw [← h]
    cases (connLoop reads false).subscribed <;> simp
  · intro e
    simp [entry_destroy]

/-- C3: the request loop consumes every full-size Lookup, Dump, RegisterUp
and RegisterDown request and terminates exactly at the first short read,
End request or unrecognized request; a transport diagnostic is logged
exactly for a non-zero short read, and an unknown-command diagnostic
exactly for an unrecognized full-size type. -/
theorem C3_loop_termination (pre : List Recv) (r : Recv) (rest : List Recv)
    (sub : Bool) (hpre : ∀ x ∈ pre, contin x = true) (hr : contin r = false) :
    (connLoop (pre ++ r :: rest) sub).consumed = pre.length + 1 ∧
    (SessAct.logTransport ∈ (connLoop (pre ++ r :: rest) sub).acts ↔
      ∃ len, r = Recv.short len ∧ len ≠ 0) ∧
    (SessAct.logUnknown ∈ (connLoop (pre ++ r :: rest) sub).acts ↔
      ∃ req, r = Recv.ok req ∧ req.rtype ≠ LOOKIP_LOOKUP ∧ req.rtype ≠ LOOKIP_DUMP ∧
        req.rtype ≠ LOOKIP_REGISTER_UP ∧ req.rtype ≠ LOOKIP_REGISTER_DOWN ∧
        req.rtype ≠ LOOKIP_END) := by
  induction pre generalizing sub with
  | nil =>
    cases r with
    | ok req =>
      simp only [contin, Bool.or_eq_false_iff, beq_eq_false_iff_ne, ne_eq] at hr
      obtain ⟨⟨⟨h1, h2⟩, h3⟩, h4⟩ := hr
      by_cases h5 : req.rtype = LOOKIP_END
      · simp [connLoop, h1, h2, h3, h4, h5, LOOKIP_LOOKUP, LOOKIP_DUMP,
          LOOKIP_REGISTER_UP, LOOKIP_REGISTER_DOWN, LOOKIP_END]
      · simp [connLoop, h1, h2, h3, h4, h5]
    | short len =>
      by_cases h0 : len = 0 <;> simp [connLoop, h0]
  | cons p pre ih =>
    have hp := hpre p (List.mem_cons_self p pre)
    have hpre2 : ∀ x ∈ pre, contin x = true :=
      fun x hx => hpre x (List.mem_cons_of_mem p hx)
    cases p with
    | short l => simp [contin] at hp
    | ok req =>
      simp only [contin, Bool.or_eq_true, beq_iff_eq] at hp
      rcases hp with ((h | h) | h) | h
      · obtain ⟨ihc, iht, ihu⟩ := ih sub hpre2
        simp [connLoop, h, ihc, iht, ihu, LOOKIP_LOOKUP, LOOKIP_DUMP,
          LOOKIP_REGISTER_UP, LOOKIP_REGISTER_DOWN, LOOKIP_END]
      · obtain ⟨ihc, iht, ihu⟩ := ih sub hpre2
        simp [connLoop, h, ihc, iht, ihu, LOOKIP_LOOKUP, LOOKIP_DUMP,
          LOOKIP_REGISTER_UP, LOOKIP_REGISTER_DOWN, LOOKIP_END]
      · obtain ⟨ihc, iht, ihu⟩ := ih true hpre2
        simp [connLoop, h, ihc, iht, ihu, LOOKIP_LOOKUP, LOOKIP_DUMP,
          LOOKIP_REGISTER_UP, LOOKIP_REGISTER_DOWN, LOOKIP_END]
      · obtain ⟨ihc, iht, ihu⟩ := ih true hpre2
        simp [connLoop, h, ihc, iht, ihu, LOOKIP_LOOKUP, LOOKIP_DUMP,
          LOOKIP_REGISTER_UP, LOOKIP_REGISTER_DOWN, LOOKIP_END]

/-- Witness for C3 at concrete inputs: one Lookup request followed by a
short read of 5 bytes. -/
theorem C3_loop_termination_witness :
    (∀ x ∈ [Recv.ok ⟨0, []⟩], contin x = true) ∧ contin (Recv.short 5) = false ∧
    (connLoop ([Recv.ok ⟨0, []⟩] ++ Recv.short 5 :: []) false).consumed = 2 := by
  refine ⟨by decide, by decide, ?_⟩
  simpa using (C3_loop_termination [Recv.ok ⟨0, []⟩] (Recv.short 5) [] false
    (by decide) (by decide)).1

/-- C6: every response field is written truncated to its fixed capacity
and null-terminated inside it, for source strings of any length, and the
address string of a request is null-terminated within its own capacity
(at its last byte) before being parsed. -/
theorem C6_truncation (k : EntryKind) (vipS ipS idS nameS v : List Nat)
    (hv : v.length = REQ_VIP_CAP) :
    ((mkResponse k vipS ipS idS nameS).vip.length ≤ VIP_CAP ∧
      (mkResponse k vipS ipS idS nameS).vip.getLast? = some 0) ∧
    ((mkResponse k vipS ipS idS nameS).ip.length ≤ IP_CAP ∧
      (mkResponse k vipS ipS idS nameS).ip.getLast? = some 0) ∧
    ((mkResponse k vipS ipS idS nameS).idf.length ≤ ID_CAP ∧
      (mkResponse k vipS ipS idS nameS).idf.getLast? = some 0) ∧
    ((mkResponse k vipS ipS idS nameS).name.length ≤ NAME_CAP ∧
      (mkResponse k vipS ipS idS nameS).name.getLast? = some 0) ∧
    ((terminateBuf v).length = REQ_VIP_CAP ∧
      (terminateBuf v)[REQ_VIP_CAP - 1]? = some 0) := by
  refine ⟨⟨?_, ?_⟩, ⟨?_, ?_⟩, ⟨?_, ?_⟩, ⟨?_, ?_⟩, ?_, ?_⟩ <;>
    simp [mkResponse, snprintfBuf, terminateBuf, VIP_CAP, IP_CAP, ID_CAP,
      NAME_CAP, REQ_VIP_CAP, hv]

/-- Witness for C6 at concrete inputs: strings longer than every
capacity. -/
theorem C6_truncation_witness :
    (List.replicate 40 (7 : Nat)).length = REQ_VIP_CAP ∧
    (mkResponse EntryKind.lookupResult (List.replicate 500 1) (List.replicate 500 2)
        (List.replicate 500 3) (List.replicate 500 4)).vip.length ≤ VIP_CAP := by
  refine ⟨by decide, ?_⟩
  exact ((C6_truncation EntryKind.lookupResult (List.replicate 500 1)
    (List.replicate 500 2) (List.replicate 500 3) (List.replicate 500 4)
    (List.replicate 40 7) (by decide)).1).1

/-- C7: the claim that open_socket restores the saved umask on every path
is contradicted by the code: on the bind-failure path it logs, closes the
socket and returns FALSE with the umask still restricted, while the
success and listen-failure paths do restore it. -/
theorem C7_umask_leak_on_bind_failure :
    (open_socket true false true true).ok = false ∧
    SysAct.umaskRestrict ∈ (open_socket true false true true).acts ∧
    SysAct.umaskRestore ∉ (open_socket true false true true).acts ∧
    SysAct.umaskRestore ∈ (open_socket true true true true).acts ∧
    SysAct.umaskRestore ∈ (open_socket true true true false).acts := by
  decide

/-- Applying the actions of one listener_cb invocation either leaves the
registry state unchanged or, exactly when the callback stops a persistent
entry, removes that entry from the registry and closes its descriptor. -/
theorem applyActs_listener_cb (st : RegState) (e : SEntry) (up : Bool)
    (vipS ipS idS nameS : List Nat) (sendRes : Int) :
    applyActs st (listener_cb e up vipS ipS idS nameS sendRes).acts = st ∨
    (applyActs st (listener_cb e up vipS ipS idS nameS sendRes).acts =
      { st with clients := st.clients.filter (fun x => x.eid != e.eid),
                openFds := st.openFds.filter (fun f => f != e.fd) } ∧
     (listener_cb e up vipS ipS idS nameS sendRes).keep = false ∧
     e.hasThis = true) := by
  unfold listener_cb
  by_cases hf : up = true ∧ e.kind = EntryKind.notifyDown
  · left; simp [hf, applyActs, applyAct]
  · rw [if_neg hf]
    by_cases hf2 : up = false ∧ e.kind = EntryKind.notifyUp
    · left; simp [hf2, applyActs, applyAct]
    · rw [if_neg hf2]
      by_cases hs : sendRes = RESP_SIZE
      · left; simp [hs, applyActs, applyAct]
      · rw [if_neg hs]
        by_cases hp : e.hasThis
        · right
          refine ⟨?_, by simp, hp⟩
          by_cases h0 : sendRes = 0 <;>
            simp [h0, hp, entry_destroy, applyActs, applyAct]
        · left
          by_cases h0 : sendRes = 0 <;>
            simp [h0, hp, entry_destroy, applyActs, applyAct]

/-- A transient entry has no back pointer, so its callback never touches
the registry state. -/
theorem listener_cb_transient (st : RegState) (e : SEntry) (up : Bool)
    (vipS ipS idS nameS : List Nat) (sendRes : Int) (hp : e.hasThis = false) :
    applyActs st (listener_cb e up vipS ipS idS nameS sendRes).acts = st := by
  rcases applyActs_listener_cb st e up vipS ipS idS nameS sendRes with h | ⟨_, _, h3⟩
  · exact h
  · rw [hp] at h3
    exact absurd h3 (by simp)

/-- C5 counterexample: by accepting one connection and registering it for
both Up and Down events, the registry reaches a state with two entries for
the same descriptor 5. -/
theorem C5_counterexample :
    Reach ⟨[⟨0, 5, EntryKind.notifyUp, true⟩, ⟨1, 5, EntryKind.notifyDown, true⟩], [5], 2⟩ ∧
    ¬ ((([⟨0, 5, EntryKind.notifyUp, true⟩, ⟨1, 5, EntryKind.notifyDown, true⟩] :
          List SEntry).map SEntry.fd).Nodup) := by
  constructor
  · have h0 : Reach ⟨[], [], 0⟩ := Reach.init
    have h1 := Reach.step _ _ _ h0 (Step.accept ⟨[], [], 0⟩ 5 (by simp))
    have h2 := Reach.step _ _ _ h1
      (Step.subscribeOp ⟨[], [5], 0⟩ 5 EntryKind.notifyUp (by simp) (Or.inl rfl))
    have h3 := Reach.step _ _ _ h2
      (Step.subscribeOp ⟨[⟨0, 5, EntryKind.notifyUp, true⟩], [5], 1⟩ 5
        EntryKind.notifyDown (by simp) (Or.inr rfl))
    simpa [subscribe] using h3
  · decide

/-- C5 (amended): in every state reachable by runs in which each subscribe
uses a descriptor with no existing registry entry, the registry holds no
two entries with the same descriptor and every entry corresponds to a
still-open descriptor. -/
theorem C5_registry_invariant (s : RegState) (h : ReachD s) :
    (s.clients.map SEntry.fd).Nodup ∧ ∀ e ∈ s.clients, e.fd ∈ s.openFds := by
  induction h with
  | init => exact ⟨List.nodup_nil, by simp⟩
  | step s s2 lab hr hstep hside ih =>
    obtain ⟨ihn, ihm⟩ := ih
    cases hstep with
    | accept fd hfd =>
      exact ⟨ihn, fun e he => List.mem_cons_of_mem fd (ihm e he)⟩
    | subscribeOp fd kind hfd hk =>
      have hnew : ∀ e ∈ s.clients, e.fd ≠ fd := hside fd kind rfl
      constructor
      · simp only [subscribe, List.map_append, List.map_cons, List.map_nil]
        rw [List.nodup_append]
        refine ⟨ihn, List.nodup_singleton fd, ?_⟩
        intro a ha hb
        simp only [List.mem_singleton] at hb
        subst hb
        obtain ⟨e, he, hfd2⟩ := List.mem_map.1 ha
        exact hnew e he hfd2
      · intro e he
        simp only [subscribe, List.mem_append, List.mem_singleton] at he
        rcases he with he | he
        · exact ihm e he
        · subst he; exact hfd
    | notifyOp e2 up vipS ipS idS nameS sendRes he2 =>
      rcases applyActs_listener_cb s e2 up vipS ipS idS nameS sendRes with heq | ⟨heq, _, _⟩
      · rw [heq]; exact ⟨ihn, ihm⟩
      · rw [heq]
        constructor
        · exact ihn.sublist ((List.filter_sublist s.clients).map SEntry.fd)
        · intro x hx
          obtain ⟨hxm, hxp⟩ := List.mem_filter.1 hx
          have hxfd : x.fd ≠ e2.fd := by
            intro hcontra
            have hxe : x = e2 := List.inj_on_of_nodup_map ihn hxm he2 hcontra
            rw [hxe] at hxp
            simp at hxp
          exact List.mem_filter.2 ⟨ihm x hxm, by simpa using hxfd⟩
    | sessionClose fd hfd hn =>
      exact ⟨ihn, fun e he => List.mem_filter.2 ⟨ihm e he, by simpa using hn e he⟩⟩
    | destroyOp =>
      exact ⟨by simp [destroyAll], by simp [destroyAll]⟩

/-- Witness for C5 (amended) at a concrete run: accept descriptor 5, then
register it once. -/
theorem C5_registry_invariant_witness :
    (((subscribe ⟨[], [5], 0⟩ 5 EntryKind.notifyUp).clients.map SEntry.fd).Nodup ∧
      ∀ e ∈ (subscribe ⟨[], [5], 0⟩ 5 EntryKind.notifyUp).clients,
        e.fd ∈ (subscribe ⟨[], [5], 0⟩ 5 EntryKind.notifyUp).openFds) := by
  have h0 : ReachD ⟨[], [], 0⟩ := ReachD.init
  have h1 := ReachD.step _ _ _ h0 (Step.accept ⟨[], [], 0⟩ 5 (by simp))
    (by intro fd kind hlab; exact absurd hlab (by simp))
  have h2 := ReachD.step _ _ _ h1
    (Step.subscribeOp ⟨[], [5], 0⟩ 5 EntryKind.notifyUp (by simp) (Or.inl rfl))
    (by intro fd kind hlab e he; exact absurd he (by simp))
  exact C5_registry_invariant _ h2

/-- C9: once a connection has subscribed, the handler does not close its
descriptor when the session ends; and a registered entry leaves the
registry only through a notification whose write failed (the callback
returned stop) or through the teardown of the whole service. -/
theorem C9_subscription_lifetime :
    (∀ reads : List Recv,
      (∃ x ∈ reads.take (connLoop reads false).consumed, isReg x = true) →
      (handleConn reads).fdClosed = false) ∧
    (∀ (s s2 : RegState) (lab : Lab) (e : SEntry),
      Step s lab s2 → e ∈ s.clients → e ∉ s2.clients →
      (s.clients.map SEntry.eid).Nodup →
      (∃ up vipS ipS idS nameS sendRes,
        lab = Lab.notifyOp e up vipS ipS idS nameS sendRes ∧
        (listener_cb e up vipS ipS idS nameS sendRes).keep = false) ∨
      lab = Lab.destroyOp) := by
  constructor
  · intro reads hex
    have h := connLoop_subscribed reads false
    simp only [Bool.false_eq_true, false_or] at h
    have hs : (connLoop reads false).subscribed = true := h.mpr hex
    simp [handleConn, hs]
  · intro s s2 lab e hstep hin hout hnodup
    cases hstep with
    | accept fd hfd => exact absurd hin hout
    | subscribeOp fd kind hfd hk =>
      exact absurd (List.mem_append_left _ hin) hout
    | notifyOp e2 up vipS ipS idS nameS sendRes he2 =>
      rcases applyActs_listener_cb s e2 up vipS ipS idS nameS sendRes with
        heq | ⟨heq, hkeep, _⟩
      · rw [heq] at hout
        exact absurd hin hout
      · rw [heq] at hout
        have heid : e.eid = e2.eid := by
          by_contra hne
          exact hout (List.mem_filter.2 ⟨hin, by simpa using hne⟩)
        have hee : e = e2 := List.inj_on_of_nodup_map hnodup hin he2 heid
        subst hee
        exact Or.inl ⟨up, vipS, ipS, idS, nameS, sendRes, rfl, hkeep⟩
    | sessionClose fd hfd hn => exact absurd hin hout
    | destroyOp => exact Or.inr rfl

/-- Witness for C9 at concrete inputs: a registered entry dropped by a
notification whose send returned 0. -/
theorem C9_subscription_lifetime_witness :
    (∃ up vipS ipS idS nameS sendRes,
      Lab.notifyOp ⟨0, 7, EntryKind.notifyUp, true⟩ true [1] [2] [3] [4] 0 =
        Lab.notifyOp ⟨0, 7, EntryKind.notifyUp, true⟩ up vipS ipS idS nameS sendRes ∧
      (listener_cb ⟨0, 7, EntryKind.notifyUp, true⟩ up vipS ipS idS nameS
        sendRes).keep = false) ∨
    Lab.notifyOp ⟨0, 7, EntryKind.notifyUp, true⟩ true [1] [2] [3] [4] 0 =
      Lab.destroyOp :=
  (C9_subscription_lifetime).2 ⟨[⟨0, 7, EntryKind.notifyUp, true⟩], [7], 1⟩
    (applyActs ⟨[⟨0, 7, EntryKind.notifyUp, true⟩], [7], 1⟩
      (listener_cb ⟨0, 7, EntryKind.notifyUp, true⟩ true [1] [2] [3] [4] 0).acts)
    (Lab.notifyOp ⟨0, 7, EntryKind.notifyUp, true⟩ true [1] [2] [3] [4] 0)
    ⟨0, 7, EntryKind.notifyUp, true⟩
    (Step.notifyOp _ _ _ _ _ _ _ _ (by simp))
    (by simp) (by decide) (by decide)

/-- For a LookupResult entry on a synthetic Up event the filter never
fires: on a full write the callback keeps going, otherwise it stops. -/
theorem listener_cb_lookup (e : SEntry) (vipS ipS idS nameS : List Nat)
    (sendRes : Int) (hk : e.kind = EntryKind.lookupResult) :
    (sendRes = RESP_SIZE →
      listener_cb e true vipS ipS idS nameS sendRes =
        { keep := true,
          acts := [Act.sendCall e.fd (mkResponse e.kind vipS ipS idS nameS)] }) ∧
    (sendRes ≠ RESP_SIZE →
      (listener_cb e true vipS ipS idS nameS sendRes).keep = false) := by
  unfold listener_cb
  constructor <;> intro hs <;> simp [hk, hs]

/-- Splitting the directory iteration at a point up to which every
callback succeeded: the iteration continues into the second part with the
send-result index advanced by the number of matches of the first part. -/
theorem dirLookup_append (e : SEntry) (target : Option (List Nat))
    (sendRes : Nat → Int) (pre rest : List Lease)
    (hk : e.kind = EntryKind.lookupResult) :
    ∀ i, (∀ j, j < mcount target pre → sendRes (i + j) = RESP_SIZE) →
    dirLookup e target sendRes (pre ++ rest) i =
      dirLookup e target sendRes pre i ++
        dirLookup e target sendRes rest (i + mcount target pre) := by
  induction pre with
  | nil => intro i hi; simp [dirLookup, mcount]
  | cons l pre ih =>
    intro i hi
    by_cases hm : matchesTarget target l
    · have hmc : mcount target (l :: pre) = mcount target pre + 1 := by
        simp [mcount, List.filter_cons, hm]
      have hs : sendRes i = RESP_SIZE := by
        have h0 := hi 0 (by omega)
        simpa using h0
      have hcb := (listener_cb_lookup e l.vip l.other l.peerId l.confName
        (sendRes i) hk).1 hs
      have hih := ih (i + 1) (fun j hj => by
        have h2 := hi (j + 1) (by omega)
        rwa [show i + (j + 1) = i + 1 + j by omega] at h2)
      rw [hmc, show i + (mcount target pre + 1) = i + 1 + mcount target pre by omega]
      simp only [List.cons_append, dirLookup, hm, if_true, hcb, hih]
      simp [List.append_assoc, hih]
    · have hmc : mcount target (l :: pre) = mcount target pre := by
        simp [mcount, List.filter_cons, hm]
      have hih := ih i (fun j hj => hi j (by omega))
      rw [hmc]
      simp only [List.cons_append, dirLookup, hm]
      simp [hih]

/-- The directory iteration with a transient entry never touches the
registry state: its callbacks only write and log. -/
theorem applyActs_dirLookup_transient (e : SEntry) (target : Option (List Nat))
    (sendRes : Nat → Int) (ls : List Lease) (hp : e.hasThis = false) :
    ∀ (i : Nat) (st : RegState),
      applyActs st (dirLookup e target sendRes ls i) = st := by
  induction ls with
  | nil => intro i st; rfl
  | cons l rest ih =>
    intro i st
    by_cases hm : matchesTarget target l
    · by_cases hkeep :
        (listener_cb e true l.vip l.other l.peerId l.confName (sendRes i)).keep = true
      · simp only [dirLookup, hm, if_true, hkeep, ite_true]
        have h1 := listener_cb_transient st e true l.vip l.other l.peerId l.confName
          (sendRes i) hp
        rw [applyActs, List.foldl_append]
        rw [applyActs] at h1
        rw [h1]
        exact ih (i + 1) st
      · simp only [dirLookup, hm, if_true]
        rw [if_neg hkeep]
        exact listener_cb_transient st e true l.vip l.other l.peerId l.confName
          (sendRes i) hp
    · simp only [dirLookup, hm]
      rw [if_neg (by simp [hm])]
      exact ih i st

/-- C8 counterexample: a Lookup request whose address string does not
parse makes query perform no action at all; in particular no diagnostic is
logged, contradicting that the fault is logged. -/
theorem C8_counterexample :
    query (fun _ => none) [] (fun _ => 0) 7 (some ⟨0, List.replicate 40 65⟩) = [] :=
  rfl

/-- C8 (amended): for a Lookup request whose address string does not
parse, the fault is silently ignored without a diagnostic: no directory
lookup is invoked, no response is written, the registry is unchanged, and
the connection loops back to read the next request. -/
theorem C8_unparseable_lookup (parse : List Nat → Option (List Nat))
    (leases : List Lease) (sendRes : Nat → Int) (fd : Nat) (r : Request)
    (rest : List Recv) (sub : Bool) (st : RegState)
    (hp : parse (terminateBuf r.vip) = none) (hr : r.rtype = LOOKIP_LOOKUP) :
    query parse leases sendRes fd (some r) = [] ∧
    applyActs st (query parse leases sendRes fd (some r)) = st ∧
    (connLoop (Recv.ok r :: rest) sub).consumed = (connLoop rest sub).consumed + 1 ∧
    (connLoop (Recv.ok r :: rest) sub).reason = (connLoop rest sub).reason := by
  have hq : query parse leases sendRes fd (some r) = [] := by
    simp [query, hp]
  refine ⟨hq, by rw [hq]; rfl, ?_, ?_⟩ <;> simp [connLoop, hr]

/-- Witness for C8 (amended) at concrete inputs. -/
theorem C8_unparseable_lookup_witness :
    query (fun _ => none) [] (fun _ => 1) 9 (some ⟨0, List.replicate 40 66⟩) = [] :=
  (C8_unparseable_lookup (fun _ => none) [] (fun _ => 1) 9 ⟨0, List.replicate 40 66⟩
    [] false ⟨[], [], 0⟩ rfl rfl).1

/-- C10: for a transient lookup entry, the first failed write makes the
callback return stop, the directory iteration ends there, so no response
for any later lease of the list is written, and neither the registry nor
the set of open descriptors is touched. -/
theorem C10_transient_write_failure (fd : Nat) (pre post : List Lease) (l : Lease)
    (target : Option (List Nat)) (sendRes : Nat → Int) (st : RegState)
    (hpre : ∀ j, j < mcount target pre → sendRes j = RESP_SIZE)
    (hl : matchesTarget target l = true)
    (hfail : sendRes (mcount target pre) ≠ RESP_SIZE) :
    (listener_cb ⟨0, fd, EntryKind.lookupResult, false⟩ true l.vip l.other l.peerId
        l.confName (sendRes (mcount target pre))).keep = false ∧
    dirLookup ⟨0, fd, EntryKind.lookupResult, false⟩ target sendRes (pre ++ l :: post) 0 =
      dirLookup ⟨0, fd, EntryKind.lookupResult, false⟩ target sendRes pre 0 ++
        (listener_cb ⟨0, fd, EntryKind.lookupResult, false⟩ true l.vip l.other l.peerId
          l.confName (sendRes (mcount target pre))).acts ∧
    applyActs st
      (dirLookup ⟨0, fd, EntryKind.lookupResult, false⟩ target sendRes
        (pre ++ l :: post) 0) = st := by
  have hkeep := (listener_cb_lookup ⟨0, fd, EntryKind.lookupResult, false⟩ l.vip
    l.other l.peerId l.confName (sendRes (mcount target pre)) rfl).2 hfail
  have happ := dirLookup_append ⟨0, fd, EntryKind.lookupResult, false⟩ target sendRes
    pre (l :: post) rfl 0 (fun j hj => by simpa using hpre j hj)
  have hstep : dirLookup ⟨0, fd, EntryKind.lookupResult, false⟩ target sendRes
      (l :: post) (0 + mcount target pre) =
      (listener_cb ⟨0, fd, EntryKind.lookupResult, false⟩ true l.vip l.other l.peerId
        l.confName (sendRes (mcount target pre))).acts := by
    simp only [Nat.zero_add]
    simp [dirLookup, hl, hkeep]
  refine ⟨hkeep, ?_, ?_⟩
  · rw [happ, hstep]
  · exact applyActs_dirLookup_transient ⟨0, fd, EntryKind.lookupResult, false⟩ target
      sendRes (pre ++ l :: post) rfl 0 st

/-- Witness for C10 at concrete inputs: one matching lease whose send
returns 0. -/
theorem C10_transient_write_failure_witness :
    (listener_cb ⟨0, 7, EntryKind.lookupResult, false⟩ true [1] [2] [3] [4]
      (0 : Int)).keep = false :=
  (C10_transient_write_failure 7 [] [] ⟨[1], [2], [3], [4]⟩ none (fun _ => 0)
    ⟨[], [], 0⟩ (fun j hj => absurd hj (by simp [mcount])) rfl (by decide)).1

end Lookip
